import Mathlib

/-!
Verification development for the Optic-1 / ShadowGuard tiled audit orchestrator.

Shallow embedding conventions:
* JS strings are `List Char`; JS numbers are `ℚ` (exact rational model of the
  numeric values flowing through the audited code paths); `NaN` and absent
  values are `Option`; JS `undefined`-tolerant fields are `Option` fields.
* Pure functions of the source (`src/utils.ts`, the analysis service, the
  orchestrator loop of `src/App.tsx`) become Lean functions of the same name.
-/

namespace Optic

/-- Whitespace characters recognised by the model of JS `trim` / `\s`
(the ASCII subset, which covers every string the audited code builds). -/
def isSpaceChar (c : Char) : Bool :=
  c = ' ' || c = '\t' || c = '\n' || c = '\r'

/-- Models `String.prototype.toLowerCase` on ASCII characters. -/
def lowerChar (c : Char) : Char :=
  if 'A' ≤ c ∧ c ≤ 'Z' then Char.ofNat (c.toNat + 32) else c

/-- Models `String.prototype.toUpperCase` on ASCII characters (used for the
case-insensitive `/i` flag of the currency regex). -/
def upperChar (c : Char) : Char :=
  if 'a' ≤ c ∧ c ≤ 'z' then Char.ofNat (c.toNat - 32) else c

/-- Does `pat` occur as a contiguous substring of `s`?
Models `String.prototype.includes`. -/
def containsSub (pat s : List Char) : Bool :=
  (List.range (s.length + 1)).any (fun i => (s.drop i).take pat.length == pat)

/-- Models `String.prototype.trim` (both ends). -/
def trimList (s : List Char) : List Char :=
  ((s.dropWhile isSpaceChar).reverse.dropWhile isSpaceChar).reverse

/-- Index of the last occurrence of `c`, if any. -/
def lastIdxO (c : Char) : List Char → Option Nat
  | [] => none
  | x :: xs =>
    match lastIdxO c xs with
    | some j => some (j + 1)
    | none => if x = c then some 0 else none

/-- Models `String.prototype.lastIndexOf` for a single character:
the index of the last occurrence, `-1` when absent. -/
def lastIdxZ (c : Char) (s : List Char) : Int :=
  match lastIdxO c s with
  | some j => (j : Int)
  | none => -1

/-- Models `String.prototype.replace` with a plain one-character pattern:
only the first occurrence is replaced. -/
def replaceFirst (c d : Char) : List Char → List Char
  | [] => []
  | x :: xs => if x = c then d :: xs else x :: replaceFirst c d xs

/-- Models `String.prototype.replace` of a one-character pattern by the empty
string: only the first occurrence is removed. -/
def removeFirst (c : Char) : List Char → List Char
  | [] => []
  | x :: xs => if x = c then xs else x :: removeFirst c xs

/-- The character class `[\d,.]` of the price regex in `cleanPrice`. -/
def isNumChar (c : Char) : Bool :=
  c.isDigit || c = ',' || c = '.'

/-- The currency symbols of the price regex in `src/utils.ts`. -/
def currencySyms : List Char := ['$', '€', '£', '¥']

/-- The three-letter currency codes of the price regex. -/
def currencyCodes : List (List Char) :=
  [['U','S','D'], ['E','U','R'], ['G','B','P'], ['C','A','D'], ['A','U','D']]

/-- Length consumed by the group `([\$€£¥]|USD|EUR|GBP|CAD|AUD)` (with the
`/i` flag) when it matches at the head of `s`; `none` when it does not. -/
def matchCurrencyAt (s : List Char) : Option Nat :=
  match s with
  | [] => none
  | c :: _ =>
    if c ∈ currencySyms then some 1
    else if (s.take 3).map upperChar ∈ currencyCodes then some 3
    else none

/-- Drop trailing non-digit characters: the greedy match of `([\d,.]+\d)`
inside a maximal `[\d,.]` run is its longest prefix ending in a digit. -/
def truncAfterLastDigit (run : List Char) : List Char :=
  (run.reverse.dropWhile (fun c => !c.isDigit)).reverse

/-- The group `([\d,.]+\d)` matched greedily at the head of `s` (with nothing
required after it): longest digit-terminated prefix of the `[\d,.]` run. -/
def numSeqAt (s : List Char) : Option (List Char) :=
  let run := s.takeWhile isNumChar
  let p := truncAfterLastDigit run
  if p.isEmpty then none else some p

/-- First alternative of the price regex, anchored at the head of `s`:
currency token, optional single whitespace, then `([\d,.]+\d)`.
Returns the captured numeral sequence (group 2). -/
def alt1At (s : List Char) : Option (List Char) :=
  match matchCurrencyAt s with
  | none => none
  | some k =>
    let rest := s.drop k
    match rest.head? with
    | some c =>
      if isSpaceChar c then
        match numSeqAt (rest.drop 1) with
        | some p => some p
        | none => numSeqAt rest
      else numSeqAt rest
    | none => none

/-- Second alternative of the price regex, anchored at the head of `s`:
`([\d,.]+\d)` then optional single whitespace then a currency token.
Backtracking cannot shorten the numeral run (its characters match neither
`\s` nor a currency token), so the run must itself end in a digit.
Returns the captured numeral sequence (group 3). -/
def alt2At (s : List Char) : Option (List Char) :=
  let run := s.takeWhile isNumChar
  let p := truncAfterLastDigit run
  if p.isEmpty || p ≠ run then none
  else
    let rest := s.drop run.length
    let wsStep :=
      match rest.head? with
      | some c => isSpaceChar c && (matchCurrencyAt (rest.drop 1)).isSome
      | none => false
    if wsStep || (matchCurrencyAt rest).isSome then some p else none

/-- Leftmost match of the price regex of `cleanPrice`, alternative 1 tried
before alternative 2 at each start position; returns the numeral capture
(`priceMatch[2] || priceMatch[3]` of the source). -/
def findPriceMatchFrom : List Char → Option (List Char)
  | [] => none
  | x :: xs =>
    match alt1At (x :: xs) with
    | some p => some p
    | none =>
      match alt2At (x :: xs) with
      | some p => some p
      | none => findPriceMatchFrom xs

/-- Numeric value of a digit string (most significant first). -/
def digitsVal (ds : List Char) : ℕ :=
  ds.foldl (fun a c => 10 * a + (c.toNat - '0'.toNat)) 0

/-- Models JS `parseFloat` on the cleaned numeral text: longest numeric
prefix `digits [. digits]`; `none` models `NaN`.  (Signs, whitespace and
exponents cannot occur in the strings `cleanPrice` builds, which consist of
digits, `','` and `'.'` only.) -/
def parseFloatQ (s : List Char) : Option ℚ :=
  let intDs := s.takeWhile Char.isDigit
  let rest := s.drop intDs.length
  let fracDs :=
    if rest.head? = some '.' then (rest.drop 1).takeWhile Char.isDigit else []
  if intDs.isEmpty && fracDs.isEmpty then none
  else some ((digitsVal intDs : ℚ) + (digitsVal fracDs : ℚ) / (10 : ℚ) ^ fracDs.length)

/-- The separator-disambiguation stage of `cleanPrice`
(`src/utils.ts` lines 31–47), verbatim from the source:
mixed separators keep the rightmost kind as decimal (removing every
occurrence of the other kind, replacing the first occurrence of the decimal
kind); a lone `','` is decimal exactly when the last comma is followed by two
characters (then the first comma is replaced), else the first comma is
removed; a lone `'.'` is decimal under the same positional test (then the
text is kept as is), else every dot is removed. -/
def cleanSeparators (raw : List Char) : List Char :=
  let lastComma := lastIdxZ ',' raw
  let lastDot := lastIdxZ '.' raw
  if lastComma ≠ -1 ∧ lastDot ≠ -1 then
    if lastComma > lastDot then replaceFirst ',' '.' (raw.filter (fun c => c ≠ '.'))
    else raw.filter (fun c => c ≠ ',')
  else if lastComma ≠ -1 then
    if (raw.length : Int) - 1 - lastComma = 2 then replaceFirst ',' '.' raw
    else removeFirst ',' raw
  else if lastDot ≠ -1 then
    if (raw.length : Int) - 1 - lastDot = 2 then raw
    else raw.filter (fun c => c ≠ '.')
  else raw

/-- Does the last occurrence of `c` in `raw` have exactly two digits after
it?  (The specification's wording of the decimal-separator test.) -/
def twoDigitsAfterLast (c : Char) (raw : List Char) : Bool :=
  match lastIdxO c raw with
  | none => false
  | some j => decide ((raw.drop (j + 1)).length = 2) && (raw.drop (j + 1)).all Char.isDigit

/-- The separator-disambiguation rule as the specification words it
(for comparison with `cleanSeparators`): with both separators present the
rightmost kind is the decimal separator (every occurrence of it converted
to a dot) and every occurrence of the other kind is removed; a lone kind is
decimal exactly when two digits follow it, else every occurrence of it is
removed. -/
def specSeparators (raw : List Char) : List Char :=
  if (',' ∈ raw) ∧ ('.' ∈ raw) then
    if lastIdxZ ',' raw > lastIdxZ '.' raw then
      (raw.filter (fun c => c ≠ '.')).map (fun c => if c = ',' then '.' else c)
    else raw.filter (fun c => c ≠ ',')
  else if ',' ∈ raw then
    if twoDigitsAfterLast ',' raw then raw.map (fun c => if c = ',' then '.' else c)
    else raw.filter (fun c => c ≠ ',')
  else if '.' ∈ raw then
    if twoDigitsAfterLast '.' raw then raw
    else raw.filter (fun c => c ≠ '.')
  else raw

/-- The word searched for by the free-tier test. -/
def freeWord : List Char := ['f','r','e','e']

/-- The word searched for by the gratis test. -/
def gratisWord : List Char := ['g','r','a','t','i','s']

/-- The Price Normalizer `cleanPrice` of `src/utils.ts`: `none` models `NaN`. -/
def cleanPrice (s : List Char) : Option ℚ :=
  if s.isEmpty || (trimList s).isEmpty then none
  else
    let lower := s.map lowerChar
    if containsSub freeWord lower || containsSub gratisWord lower then some 0
    else
      let raw :=
        match findPriceMatchFrom s with
        | some p => p.filter isNumChar
        | none => ((trimList s).takeWhile (fun c => !isSpaceChar c)).filter isNumChar
      if !raw.any Char.isDigit then none
      else parseFloatQ (cleanSeparators raw)

/-- Concrete input of the Price Normalizer examples: a dollar amount with a
thousands comma and decimal dot. -/
def exDollar : List Char := ['$','1',',','2','3','4','.','5','6']

/-- Concrete input: European format with thousands dot and decimal comma. -/
def exEuro : List Char := ['1','.','2','3','4',',','5','6',' ','€']

/-- Concrete input: a number with two thousands commas. -/
def exMillion : List Char := ['1',',','2','3','4',',','5','6','7']

/-! ## Data model (`src/types`) -/

/-- Severity levels. -/
inductive Severity where
  | Low
  | Medium
  | High
deriving DecidableEq

/-- The tri-state defensive status (Safe / Caution / Compromised). -/
inductive DefensiveStatus where
  | Safe
  | Caution
  | Compromised
deriving DecidableEq

/-- The function `toSeverity` of `src/types`: case-insensitive containment of high/low,
defaulting to Medium. -/
def toSeverity (val : List Char) : Severity :=
  let s := val.map lowerChar
  if containsSub ['h','i','g','h'] s then .High
  else if containsSub ['l','o','w'] s then .Low
  else .Medium

/-- A tracked priced item.  The `original_*` fields are not required by the
response schema and the merge code guards them with `??` / `||`, so they are
`Option`; `numeric_price` is likewise guarded with `?? 0`. -/
structure CatalogAnchor where
  id : List Char
  name : List Char
  price : List Char
  numeric_price : Option ℚ
  original_price : Option (List Char)
  original_numeric_price : Option ℚ
  coordinates : List ℚ
  is_violation : Bool
  is_currently_visible : Bool
deriving DecidableEq

/-- A flagged deceptive element (after severity/coordinate normalisation). -/
structure DarkPatternScan where
  pattern_type : List Char
  coordinates : List ℚ
  severity : Severity
  truth_label : List Char
  action_fix : List Char
deriving DecidableEq

/-- A finding as it appears in the parsed backend payload, before the
Analysis Client normalises severity and coordinates. -/
structure RawScan where
  pattern_type : List Char
  coordinates : Option (List ℚ)
  severity : List Char
  truth_label : List Char
  action_fix : List Char
deriving DecidableEq

/-- The `thought_signature` object of a response. -/
structure ThoughtSignature where
  reasoning_path : List Char
  security_brief : Option (List Char)
  catalog_anchors : Option (List CatalogAnchor)
deriving DecidableEq

/-- The parsed backend payload consumed by the success path of
`analyzeUIScreen` (`parsed.scans`, `parsed.thought_signature`). -/
structure ParsedResponse where
  scans : Option (List RawScan)
  thought_signature : ThoughtSignature
deriving DecidableEq

/-- Derived per-response status summary. -/
structure ViewportMeta where
  threat_count : ℕ
  status : DefensiveStatus
  advice : List Char
deriving DecidableEq

/-- The `ScanResponse` returned by `analyzeUIScreen`. -/
structure ScanResponse where
  viewport_meta : ViewportMeta
  scans : List DarkPatternScan
  thought_signature : ThoughtSignature
  error : Option (List Char)
deriving DecidableEq

/-- The session signature carried between tiles and scans
(`lastSignature` / `loopSignature` in `src/App.tsx`): a loosely typed
record, every field possibly absent. -/
structure Signature where
  reasoning_path : Option (List Char)
  security_brief : Option (List Char)
  catalog_anchors : Option (List CatalogAnchor)
deriving DecidableEq

/-- The context actually sent to the backend (`filteredPrevious`). -/
structure FilteredSignature where
  catalog_anchors : List CatalogAnchor
  security_brief : List Char
deriving DecidableEq

/-- JS `a || b` for an optional string `a`: the empty string is falsy. -/
def jsOrStr (a : Option (List Char)) (b : List Char) : List Char :=
  match a with
  | some s => if s.isEmpty then b else s
  | none => b

/-- JS `a || b` where both sides are optional strings. -/
def jsOrOptStr (a b : Option (List Char)) : Option (List Char) :=
  match a with
  | some s => if s.isEmpty then b else some s
  | none => b

/-- The default security brief of `filteredPrevious`. -/
def sessionStartBrief : List Char := "Session Start.".data

/-- The context `filteredPrevious` of `analyzeUIScreen`: only the catalog anchors and
the security brief are forwarded to the backend. -/
def filterPrevious (sig : Signature) : FilteredSignature :=
  { catalog_anchors := sig.catalog_anchors.getD []
    security_brief := jsOrStr sig.security_brief sessionStartBrief }

/-! ## Analysis Client helpers (`src/services/geminiService`) -/

/-- JS `Math.round`: round half up. -/
def jsRound (q : ℚ) : ℤ := ⌊q + 1/2⌋

/-- The function `clampCoordinates` of the Analysis Client: non-arrays and short arrays
become the all-zero box, otherwise each component is rounded and clamped
into [0,1000].  (`Number(c) || 0` maps a non-numeric component to 0; the
numeric model carries components as rationals.) -/
def clampCoordinates (coords : Option (List ℚ)) : List ℚ :=
  match coords with
  | none => [0, 0, 0, 0]
  | some cs =>
    if cs.length < 4 then [0, 0, 0, 0]
    else cs.map (fun c => ((max 0 (min 1000 (jsRound c)) : ℤ) : ℚ))

/-- Per-severity score contribution of `calculateSafetyMetrics`. -/
def severityScore (s : Severity) : ℕ :=
  match s with
  | .High => 10
  | .Medium => 3
  | .Low => 1

/-- Advice string of the Safe status. -/
def safeAdvice : List Char := "Interface appears transparent. Safe to proceed.".data

/-- Advice string of the Compromised status. -/
def compromisedAdvice : List Char := "High deceptive load or financial risk. Verify all totals.".data

/-- Advice string of the Caution status. -/
def cautionAdvice : List Char := "Manipulative patterns detected. Stay objective.".data

/-- Category containment test driving the Compromised short-circuit. -/
def hasBaitSwitchIn (scans : List DarkPatternScan) : Bool :=
  scans.any (fun s =>
    containsSub ("SWITCH".data) s.pattern_type || containsSub ("BAIT".data) s.pattern_type)

/-- Financial-risk category containment test. -/
def hasFinancialRiskIn (scans : List DarkPatternScan) : Bool :=
  scans.any (fun s =>
    containsSub ("SNEAK".data) s.pattern_type || containsSub ("HIDDEN_FEE".data) s.pattern_type)

/-- The function `calculateSafetyMetrics` of the Analysis Client: High = 10, Medium = 3,
Low = 1; Compromised when the score reaches 15 or a bait-switch /
financial-risk category is present; Caution when the score is positive. -/
def calculateSafetyMetrics (scans : List DarkPatternScan) : ViewportMeta :=
  let score := (scans.map (fun s => severityScore s.severity)).sum
  let hasBaitSwitch := hasBaitSwitchIn scans
  let hasFinancialRisk := hasFinancialRiskIn scans
  if decide (15 ≤ score) || hasBaitSwitch || hasFinancialRisk then
    { threat_count := scans.length, status := .Compromised, advice := compromisedAdvice }
  else if decide (0 < score) then
    { threat_count := scans.length, status := .Caution, advice := cautionAdvice }
  else
    { threat_count := scans.length, status := .Safe, advice := safeAdvice }

/-! ## Catalog Reconciliation Engine (`analyzeUIScreen` lines 300–330) -/

/-- The normalisation `trim().toLowerCase()` as used by the name fallback match. -/
def trimLower (s : List Char) : List Char := (trimList s).map lowerChar

/-- Index of the anchor an incoming observation merges into: identifier
equality first, then (when the observation carries a nonempty name)
case-insensitive whitespace-trimmed name equality. -/
def findMatchIdx (merged : List CatalogAnchor) (inA : CatalogAnchor) : Option ℕ :=
  match merged.findIdx? (fun a => a.id == inA.id) with
  | some i => some i
  | none =>
    if inA.name.isEmpty then none
    else merged.findIdx? (fun a => trimLower a.name == trimLower inA.name)

/-- Merge of one incoming anchor observation into the accumulated catalog,
verbatim from the source: on a match the merged anchor keeps the existing
identifier and original price fields, takes every other field from the
incoming observation, and recomputes the violation flag as
`(priceDiff > 0.01) || (inAnchor.is_violation && priceDiff > 0.01)`;
on no match the observation is appended with its own values as originals
and the flag forced false. -/
def mergeOne (merged : List CatalogAnchor) (inA : CatalogAnchor) : List CatalogAnchor :=
  match findMatchIdx merged inA with
  | some i =>
    match merged.get? i with
    | some existing =>
      let origNumeric := existing.original_numeric_price <|> inA.numeric_price
      let priceDiff := |inA.numeric_price.getD 0 - origNumeric.getD 0|
      let isViolation := decide (priceDiff > 0.01) || (inA.is_violation && decide (priceDiff > 0.01))
      merged.set i
        { inA with
          id := existing.id
          original_price := jsOrOptStr existing.original_price inA.original_price
          original_numeric_price := origNumeric
          is_violation := isViolation }
    | none => merged
  | none =>
    merged ++ [{ inA with
      original_price := some inA.price
      original_numeric_price := inA.numeric_price
      is_violation := false }]

/-- The catalog reconciliation fold over one tile's incoming observations. -/
def mergeAnchors (prev incoming : List CatalogAnchor) : List CatalogAnchor :=
  incoming.foldl mergeOne prev

/-- The post-parse success path of `analyzeUIScreen` (lines 292–337):
clamp and normalise the findings, merge the incoming anchors into the
carried catalog, compute the safety metrics from the clamped findings of
this tile, and assemble the `ScanResponse`. -/
def processParsed (filteredPrevious : FilteredSignature) (parsed : ParsedResponse) : ScanResponse :=
  let clampedScans := (parsed.scans.getD []).map (fun s =>
    { pattern_type := s.pattern_type
      coordinates := clampCoordinates s.coordinates
      severity := toSeverity s.severity
      truth_label := s.truth_label
      action_fix := s.action_fix })
  let incomingAnchors := parsed.thought_signature.catalog_anchors.getD []
  let mergedAnchors := mergeAnchors filteredPrevious.catalog_anchors incomingAnchors
  { viewport_meta := calculateSafetyMetrics clampedScans
    scans := clampedScans
    thought_signature := { parsed.thought_signature with catalog_anchors := some mergedAnchors }
    error := none }

/-! ## Retry loop of `analyzeUIScreen` (lines 214–360) -/

/-- Outcome of one backend attempt, abstracting the network call plus JSON
recovery: `ok` is a successfully parsed payload, `fail` any non-abort
failure (transport, rate limit, parse or schema failure), `abortErr` an
abort raised during the attempt. -/
inductive AttemptResult where
  | ok (p : ParsedResponse)
  | fail
  | abortErr
deriving DecidableEq

/-- Value-level outcome of `analyzeUIScreen`: a propagated cancellation
exception, or a returned `ScanResponse`. -/
inductive AnalyzeOutcome where
  | cancelled
  | returned (r : ScanResponse)
deriving DecidableEq

/-- The environment of one `analyzeUIScreen` run: whether the cancellation
token is already aborted when attempt `k` is about to start, and what
attempt `k` produces if it runs. -/
structure AttemptEnv where
  abortedBefore : ℕ → Bool
  outcome : ℕ → AttemptResult

/-- Error marker of the degraded result. -/
def neuralLinkError : List Char := "Neural Link Failure (Rate Limited or Busy).".data

/-- Advice of the degraded result. -/
def focusFailedAdvice : List Char := "System Focus Failed.".data

/-- Reasoning trace of the degraded result. -/
def haltedReasoning : List Char := "Audit halted due to resource constraints.".data

/-- Advice of the unreachable post-loop return. -/
def auditAbortedAdvice : List Char := "Audit Aborted.".data

/-- Error marker of the unreachable post-loop return. -/
def auditHaltedError : List Char := "Audit Halted.".data

/-- Reasoning trace of the unreachable post-loop return. -/
def maxRetriesReasoning : List Char := "Max retries reached.".data

/-- The degraded `ScanResponse` returned when retries are exhausted. -/
def degradedResponse (filtered : FilteredSignature) : ScanResponse :=
  { viewport_meta := { threat_count := 0, status := .Caution, advice := focusFailedAdvice }
    scans := []
    thought_signature :=
      { reasoning_path := haltedReasoning
        security_brief := some filtered.security_brief
        catalog_anchors := some filtered.catalog_anchors }
    error := some neuralLinkError }

/-- The post-while-loop return of `analyzeUIScreen` (dead code: the loop
can only be left through a return or a throw). -/
def auditHaltedResponse (filtered : FilteredSignature) : ScanResponse :=
  { viewport_meta := { threat_count := 0, status := .Caution, advice := auditAbortedAdvice }
    scans := []
    thought_signature :=
      { reasoning_path := maxRetriesReasoning
        security_brief := some filtered.security_brief
        catalog_anchors := some filtered.catalog_anchors }
    error := some auditHaltedError }

/-- Retry budget of the Analysis Client. -/
def maxRetries : ℕ := 2

/-- The `while (retryCount <= maxRetries)` loop of `analyzeUIScreen`,
with `k` the current `retryCount` and `fuel = maxRetries + 1 - k` the
number of remaining loop iterations; returns the outcome together with the
list of backoff sleeps performed (in ms).  Before each attempt the aborted
token throws; an abort error during an attempt is rethrown; any other
failure either retries after a `(retryCount+1) * 5000` ms sleep or, when
the budget is exhausted, returns the degraded response. -/
def analyzeGo (filtered : FilteredSignature) (env : AttemptEnv) :
    ℕ → ℕ → AnalyzeOutcome × List ℕ
  | _, 0 => (.returned (auditHaltedResponse filtered), [])
  | k, fuel + 1 =>
    if env.abortedBefore k then (.cancelled, [])
    else
      match env.outcome k with
      | .ok p => (.returned (processParsed filtered p), [])
      | .abortErr => (.cancelled, [])
      | .fail =>
        if k < maxRetries then
          let r := analyzeGo filtered env (k + 1) fuel
          (r.1, (k + 1) * 5000 :: r.2)
        else (.returned (degradedResponse filtered), [])

/-- The entry point `analyzeUIScreen`: filter the previous signature, then run the retry
loop from `retryCount = 0`. -/
def analyzeUIScreen (previousSignature : Signature) (env : AttemptEnv) :
    AnalyzeOutcome × List ℕ :=
  analyzeGo (filterPrevious previousSignature) env 0 (maxRetries + 1)

/-! ## Partitioner (`handleScan`, `src/App.tsx` lines 230–235, 262–263) -/

/-- Maximum tile height. -/
def maxTileHeight : ℕ := 1536

/-- Fixed tile overlap. -/
def overlapRows : ℕ := 150

/-- The stride `effectiveTileHeight = maxTileHeight - overlap`. -/
def effectiveTileHeight : ℕ := maxTileHeight - overlapRows

/-- The tile count `numTiles`: 1 when the image fits in one tile, otherwise
`Math.ceil((fullHeight - overlap) / effectiveTileHeight)` (exact on the
integer heights involved, hence natural ceiling division). -/
def numTiles (fullHeight : ℕ) : ℕ :=
  if fullHeight ≤ maxTileHeight then 1
  else (fullHeight - overlapRows + effectiveTileHeight - 1) / effectiveTileHeight

/-- The offset `offsetY = Math.floor(i * effectiveTileHeight)` (floor is the identity
on these integer products). -/
def tileOffset (i : ℕ) : ℕ := i * effectiveTileHeight

/-- The height `currentTileHeight = Math.floor(Math.min(maxTileHeight, fullHeight - offsetY))`. -/
def tileHeight (fullHeight i : ℕ) : ℕ :=
  min maxTileHeight (fullHeight - tileOffset i)

/-! ## Coordinate Remapper (`handleScan` lines 287–289, 301–308) -/

/-- The y-remap of `handleScan`:
`((local_y / 1000 * currentTileHeight) + offsetY) / fullHeight * 1000`. -/
def remapY (localY tileH offsetY fullH : ℚ) : ℚ :=
  ((localY / 1000 * tileH) + offsetY) / fullH * 1000

/-- Component of a JS 4-destructured coordinates array. -/
def coordAt (cs : List ℚ) (j : ℕ) : ℚ := cs.getD j 0

/-- Remap of a `[ymin, xmin, ymax, xmax]` box: y components remapped,
x components passed through. -/
def remapBox (fullH offsetY tileH : ℚ) (cs : List ℚ) : List ℚ :=
  [remapY (coordAt cs 0) tileH offsetY fullH, coordAt cs 1,
   remapY (coordAt cs 2) tileH offsetY fullH, coordAt cs 3]

/-! ## Orchestrator loop (`handleScan` lines 249–340) -/

/-- The test `coordinates.every(c => c === 0)`. -/
def allZero (cs : List ℚ) : Bool := cs.all (fun c => c == 0)

/-- Pattern label of the synthetic price-drift finding. -/
def baitSwitchLabel : List Char := "BAIT-AND-SWITCH".data

/-- Truth-label suffix of the synthetic finding. -/
def priceHikedSuffix : List Char := ": Price hiked since session start.".data

/-- Remediation instruction of the synthetic finding. -/
def syntheticActionFix : List Char :=
  "Suspicious price movement detected. Re-verify the total before confirming.".data

/-- The synthetic High-severity BAIT-AND-SWITCH finding generated for a
violated, visible, positioned catalog anchor. -/
def syntheticScanFor (fullH offsetY tileH : ℚ) (a : CatalogAnchor) : DarkPatternScan :=
  { pattern_type := baitSwitchLabel
    coordinates := remapBox fullH offsetY tileH a.coordinates
    severity := .High
    truth_label := a.name ++ priceHikedSuffix
    action_fix := syntheticActionFix }

/-- The findings one successful tile contributes (`tileSpecificScans`):
synthetic findings derived from the merged catalog first, then the
backend-reported findings, all remapped; zero boxes are skipped. -/
def tileSpecificScans (fullH offsetY tileH : ℚ) (result : ScanResponse) : List DarkPatternScan :=
  let anchors := result.thought_signature.catalog_anchors.getD []
  let fromAnchors :=
    (anchors.filter (fun a =>
      a.is_violation && a.is_currently_visible && !allZero a.coordinates)).map
      (syntheticScanFor fullH offsetY tileH)
  let fromScans :=
    (result.scans.filter (fun s => !allZero s.coordinates)).map
      (fun s => { s with coordinates := remapBox fullH offsetY tileH s.coordinates })
  fromAnchors ++ fromScans

/-- The accumulator of the orchestrator loop. -/
structure LoopState where
  currentTotalScans : List DarkPatternScan
  loopSignature : Signature
  finalStatus : DefensiveStatus
  finalAdvice : List Char
  error : Option (List Char)
deriving DecidableEq

/-- The loop accumulator at entry to `handleScan`'s tile loop. -/
def initialLoopState (lastSignature : Signature) : LoopState :=
  { currentTotalScans := []
    loopSignature := lastSignature
    finalStatus := .Safe
    finalAdvice := safeAdvice
    error := none }

/-- The spread `loopSignature = { ...loopSignature, ...result.thought_signature }`:
fields present in the response's thought signature overwrite the carried
signature. -/
def updateSignature (old : Signature) (ts : ThoughtSignature) : Signature :=
  { reasoning_path := some ts.reasoning_path
    security_brief := ts.security_brief <|> old.security_brief
    catalog_anchors := ts.catalog_anchors <|> old.catalog_anchors }

/-- The status fold of `handleScan` (lines 314–320): a Compromised tile
status wins outright; a Caution tile status upgrades a non-Compromised
accumulator; anything else leaves the accumulator unchanged. -/
def foldStatus (st : LoopState) (vm : ViewportMeta) : LoopState :=
  if vm.status = .Compromised then
    { st with finalStatus := .Compromised, finalAdvice := vm.advice }
  else if vm.status = .Caution ∧ st.finalStatus ≠ .Compromised then
    { st with finalStatus := .Caution, finalAdvice := vm.advice }
  else st

/-- Processing of one successful tile result inside the loop: remap and
append this tile's findings, fold the tile status, and spread the
response's thought signature over the carried signature. -/
def processTileSuccess (fullHeight i : ℕ) (st : LoopState) (result : ScanResponse) : LoopState :=
  let offsetY : ℚ := (tileOffset i : ℕ)
  let h : ℚ := (tileHeight fullHeight i : ℕ)
  let tss := tileSpecificScans (fullHeight : ℚ) offsetY h result
  let st1 := { st with currentTotalScans := st.currentTotalScans ++ tss }
  let st2 := foldStatus st1 result.viewport_meta
  { st2 with loopSignature := updateSignature st2.loopSignature result.thought_signature }

/-- One iteration of the tile loop over an already-obtained response:
an earlier error has broken the loop (no further processing); a response
carrying an error marker records it and breaks; otherwise the tile is
processed. -/
def scanStep (fullHeight : ℕ) (st : LoopState) (i : ℕ) (result : ScanResponse) : LoopState :=
  if st.error.isSome then st
  else if result.error.isSome then { st with error := result.error }
  else processTileSuccess fullHeight i st result

/-- The tile loop of `handleScan` over externally supplied per-tile
responses. -/
def runScanLoop (fullHeight : ℕ) (init : LoopState) (results : ℕ → ScanResponse) : LoopState :=
  (List.range (numTiles fullHeight)).foldl
    (fun st i => scanStep fullHeight st i (results i)) init

/-- The Viewport Meta emitted after the loop state `st`
(`setViewportMeta` call, line 327). -/
def viewportMetaOf (st : LoopState) : ViewportMeta :=
  { threat_count := st.currentTotalScans.length
    status := st.finalStatus
    advice := st.finalAdvice }

/-- One iteration of the tile loop where the response is produced by the
success path of `analyzeUIScreen` on the carried signature (the
composition the running system performs). -/
def auditStep (fullHeight : ℕ) (st : LoopState) (i : ℕ) (p : ParsedResponse) : LoopState :=
  scanStep fullHeight st i (processParsed (filterPrevious st.loopSignature) p)

/-- The full orchestration over per-tile parsed payloads with every
attempt succeeding: signature threading between tiles included. -/
def runAudit (fullHeight : ℕ) (init : LoopState) (payloads : ℕ → ParsedResponse) : LoopState :=
  (List.range (numTiles fullHeight)).foldl
    (fun st i => auditStep fullHeight st i (payloads i)) init

/-! ## Concrete scenarios -/

/-- The empty session signature (fresh session). -/
def sigEmpty : Signature :=
  { reasoning_path := none, security_brief := none, catalog_anchors := none }

/-- First sighting of the tracked item `sku1` at $10.00, visible, with a
non-zero box. -/
def obsSku1First : CatalogAnchor :=
  { id := "sku1".data
    name := "Widget".data
    price := "$10.00".data
    numeric_price := some 10
    original_price := none
    original_numeric_price := none
    coordinates := [100, 100, 200, 300]
    is_violation := false
    is_currently_visible := true }

/-- Second sighting of `sku1` at $12.00. -/
def obsSku1Second : CatalogAnchor :=
  { obsSku1First with
    price := "$12.00".data
    numeric_price := some 12
    coordinates := [120, 100, 220, 300] }

/-- A backend payload reporting no findings and the given anchors. -/
def payloadOf (anchors : List CatalogAnchor) (rp : List Char) : ParsedResponse :=
  { scans := some []
    thought_signature :=
      { reasoning_path := rp
        security_brief := some ("brief".data)
        catalog_anchors := some anchors } }

/-- The two-tile scenario payloads: tile 1 sees `sku1` at $10.00, tile 2
sees it at $12.00. -/
def c1Payloads : ℕ → ParsedResponse := fun i =>
  if i = 0 then payloadOf [obsSku1First] ("tile one".data)
  else payloadOf [obsSku1Second] ("tile two".data)

/-- Final loop state of the two-tile scenario on a 2922-row image
(two tiles: offsets 0 and 1386). -/
def c1Final : LoopState := runAudit 2922 (initialLoopState sigEmpty) c1Payloads

/-- Sighting of `sku1` at a given numeric price (for the monotonicity
scenario). -/
def obsSku1At (p : ℚ) (ps : List Char) : CatalogAnchor :=
  { obsSku1First with numeric_price := some p, price := ps }

/-- Catalog after the first sighting at 10. -/
def c2Cat1 : List CatalogAnchor := mergeAnchors [] [obsSku1At 10 ("$10.00".data)]

/-- Catalog after a second sighting at 12 (flag set). -/
def c2Cat2 : List CatalogAnchor := mergeAnchors c2Cat1 [obsSku1At 12 ("$12.00".data)]

/-- Catalog after a third sighting reverting to 10. -/
def c2Cat3 : List CatalogAnchor := mergeAnchors c2Cat2 [obsSku1At 10 ("$10.00".data)]

/-- The anchor stored in the catalog after the price hike (explicitly, for
the monotonicity analysis): flagged, with the first sighting as baseline. -/
def c2ExistingAnchor : CatalogAnchor :=
  { id := "sku1".data
    name := "Widget".data
    price := "$12.00".data
    numeric_price := some 12
    original_price := some ("$10.00".data)
    original_numeric_price := some 10
    coordinates := [100, 100, 200, 300]
    is_violation := true
    is_currently_visible := true }

/-- An anchor observation carrying an out-of-range bounding box. -/
def obsOutOfRange : CatalogAnchor :=
  { obsSku1First with coordinates := [2000, -5, 3000, 500] }

/-- A raw finding carrying out-of-range fractional coordinates. -/
def rawScanWild : RawScan :=
  { pattern_type := "SCARCITY".data
    coordinates := some [1200.4, -3, 999.6, 50.5]
    severity := "high".data
    truth_label := "fake timer".data
    action_fix := "ignore the timer".data }

/-- The carried-in context of the wild-coordinates scenario. -/
def c4Prev : FilteredSignature :=
  { catalog_anchors := [], security_brief := sessionStartBrief }

/-- The parsed payload of the wild-coordinates scenario. -/
def c4Parsed : ParsedResponse :=
  { scans := some [rawScanWild]
    thought_signature :=
      { reasoning_path := "r".data
        security_brief := some ("b".data)
        catalog_anchors := some [obsOutOfRange] } }

/-- Response of the Analysis Client on the payload with wild coordinates. -/
def c4Resp : ScanResponse := processParsed c4Prev c4Parsed

/-- The finding of the wild-coordinates scenario after clamping. -/
def c4FirstScan : DarkPatternScan :=
  { pattern_type := "SCARCITY".data
    coordinates := [1000, 0, 1000, 51]
    severity := Severity.High
    truth_label := "fake timer".data
    action_fix := "ignore the timer".data }

/-! ## Witness fixtures for the retry loop -/

/-- An environment where every attempt fails with a non-abort error. -/
def envAllFail : AttemptEnv :=
  { abortedBefore := fun _ => false, outcome := fun _ => AttemptResult.fail }

/-- An environment where attempt 0 fails and the token is aborted before
attempt 1 (i.e. during the first backoff sleep). -/
def envAbortAt1 : AttemptEnv :=
  { abortedBefore := fun k => decide (k = 1), outcome := fun _ => AttemptResult.fail }

/-- An environment where attempt 0 raises an abort error. -/
def envAbortErrAt0 : AttemptEnv :=
  { abortedBefore := fun _ => false, outcome := fun _ => AttemptResult.abortErr }

/-- Tile results where tile 0 succeeds and tile 1 degrades with an error
marker. -/
def c3Results : ℕ → ScanResponse := fun i =>
  if i = 0 then processParsed (filterPrevious sigEmpty) (payloadOf [obsSku1First] ("tile one".data))
  else degradedResponse (filterPrevious sigEmpty)

/-! ## Response Recovery Parser (`tryParsePartialJSON`, `stripMarkdown`) -/

/-- A parsed JSON value.  Numbers are kept syntactically (sign, integer
digits, fraction digits, exponent) — the recovery-parser claims never
inspect numeric values. -/
inductive Json where
  | null
  | bool (b : Bool)
  | num (neg : Bool) (intDs fracDs : List Char) (expNeg : Bool) (expDs : List Char)
  | str (s : List Char)
  | arr (elems : List Json)
  | obj (fields : List (List Char × Json))

/-- JSON whitespace (which coincides with the `\s` model used here). -/
def skipWs (s : List Char) : List Char := s.dropWhile isSpaceChar

/-- The single-character JSON string escapes. -/
def unescapeChar (e : Char) : Option Char :=
  if e = '"' then some '"'
  else if e = '\\' then some '\\'
  else if e = '/' then some '/'
  else if e = 'b' then some (Char.ofNat 8)
  else if e = 'f' then some (Char.ofNat 12)
  else if e = 'n' then some '\n'
  else if e = 'r' then some '\r'
  else if e = 't' then some '\t'
  else none

/-- Body of a JSON string after its opening quote: returns the decoded
characters and the remaining input.  (Unicode `\u` escapes are omitted from
the model; no recovery-parser claim involves them.) -/
def parseJsonStringRest : List Char → Option (List Char × List Char)
  | [] => none
  | c :: rest =>
    if c = '"' then some ([], rest)
    else if c = '\\' then
      match rest with
      | [] => none
      | e :: rest2 =>
        match unescapeChar e with
        | some d =>
          match parseJsonStringRest rest2 with
          | some (cs, r) => some (d :: cs, r)
          | none => none
        | none => none
    else
      match parseJsonStringRest rest with
      | some (cs, r) => some (c :: cs, r)
      | none => none

/-- A JSON number at the head of `s` (sign, digits, optional fraction,
optional exponent), returned syntactically with the remaining input. -/
def parseJsonNumber (s : List Char) : Option (Json × List Char) :=
  let neg := s.head? = some '-'
  let s1 := if neg then s.drop 1 else s
  let ds := s1.takeWhile Char.isDigit
  if ds.isEmpty then none
  else
    let s2 := s1.drop ds.length
    let hasFrac := s2.head? = some '.'
    let frac := if hasFrac then (s2.drop 1).takeWhile Char.isDigit else []
    let s3 := if hasFrac then (s2.drop 1).drop frac.length else s2
    if hasFrac ∧ frac.isEmpty then none
    else
      match s3 with
      | c :: t =>
        if c = 'e' ∨ c = 'E' then
          let eneg := t.head? = some '-'
          let t1 := if t.head? = some '+' ∨ t.head? = some '-' then t.drop 1 else t
          let eds := t1.takeWhile Char.isDigit
          if eds.isEmpty then none
          else some (.num neg ds frac eneg eds, t1.drop eds.length)
        else some (.num neg ds frac false [], s3)
      | [] => some (.num neg ds frac false [], [])

mutual

/-- Recursive-descent model of `JSON.parse` on one value, fuelled. -/
def parseJsonValue : ℕ → List Char → Option (Json × List Char)
  | 0, _ => none
  | fuel + 1, s =>
    match skipWs s with
    | [] => none
    | c :: rest =>
      if c = 'n' then
        if rest.take 3 = ['u','l','l'] then some (.null, rest.drop 3) else none
      else if c = 't' then
        if rest.take 3 = ['r','u','e'] then some (.bool true, rest.drop 3) else none
      else if c = 'f' then
        if rest.take 4 = ['a','l','s','e'] then some (.bool false, rest.drop 4) else none
      else if c = '"' then
        match parseJsonStringRest rest with
        | some (cs, r) => some (.str cs, r)
        | none => none
      else if c = '[' then
        match skipWs rest with
        | ']' :: r2 => some (.arr [], r2)
        | _ =>
          match parseJsonElems fuel rest with
          | some (es, r) => some (.arr es, r)
          | none => none
      else if c = '\x7b' then
        match skipWs rest with
        | '\x7d' :: r2 => some (.obj [], r2)
        | _ =>
          match parseJsonFields fuel rest with
          | some (fs, r) => some (.obj fs, r)
          | none => none
      else parseJsonNumber (c :: rest)

/-- Comma-separated array elements up to the closing bracket. -/
def parseJsonElems : ℕ → List Char → Option (List Json × List Char)
  | 0, _ => none
  | fuel + 1, s =>
    match parseJsonValue fuel s with
    | none => none
    | some (v, r) =>
      match skipWs r with
      | ',' :: r2 =>
        match parseJsonElems fuel r2 with
        | some (es, r3) => some (v :: es, r3)
        | none => none
      | ']' :: r2 => some ([v], r2)
      | _ => none

/-- Comma-separated object fields up to the closing brace. -/
def parseJsonFields : ℕ → List Char → Option (List (List Char × Json) × List Char)
  | 0, _ => none
  | fuel + 1, s =>
    match skipWs s with
    | '"' :: rest =>
      match parseJsonStringRest rest with
      | some (key, r) =>
        match skipWs r with
        | ':' :: r2 =>
          match parseJsonValue fuel r2 with
          | none => none
          | some (v, r3) =>
            match skipWs r3 with
            | ',' :: r4 =>
              match parseJsonFields fuel r4 with
              | some (fs, r5) => some ((key, v) :: fs, r5)
              | none => none
            | '\x7d' :: r4 => some ([(key, v)], r4)
            | _ => none
        | _ => none
      | none => none
    | _ => none

end

/-- Model of `JSON.parse`: one value consuming the entire input (up to
trailing whitespace); `none` models the thrown `SyntaxError`. -/
def jsonParse (text : List Char) : Option Json :=
  match parseJsonValue (text.length + 1) text with
  | some (v, rest) => if (skipWs rest).isEmpty then some v else none
  | none => none

/-- First recovery stage of `tryParsePartialJSON`: trim, then cut to the
first open brace when the text does not already start with one. -/
def recoveredStage1 (text : List Char) : List Char :=
  let r0 := trimList text
  if r0.head? = some '\x7b' then r0
  else
    match r0.findIdx? (fun c => c = '\x7b') with
    | some i => r0.drop i
    | none => r0

/-- The count `openBraces`: the excess of open braces over close braces. -/
def openExcessOf (r : List Char) : ℤ :=
  (r.count '\x7b' : ℤ) - (r.count '\x7d' : ℤ)

/-- The gate guarding the appended-brace repair:
`recovered.lastIndexOf(closing) < recovered.length - 1 && openBraces > 0`. -/
def repairGate (r : List Char) : Bool :=
  decide (lastIdxZ '\x7d' r < (r.length : ℤ) - 1) && decide (0 < openExcessOf r)

/-- Second recovery stage: append closing braces equal to the excess, but
only when the gate holds. -/
def recoveredStage2 (r : List Char) : List Char :=
  if repairGate r then r ++ List.replicate (openExcessOf r).toNat '\x7d' else r

/-- The recovery `tryParsePartialJSON`: strict parse; then the staged repair and a
reparse; then truncation at the last closing brace (when at a positive
index) and a final parse; otherwise the failure propagates. -/
def tryParsePartialJSON (text : List Char) : Option Json :=
  match jsonParse text with
  | some v => some v
  | none =>
    let r2 := recoveredStage2 (recoveredStage1 text)
    match jsonParse r2 with
    | some v => some v
    | none =>
      let lastBrace := lastIdxZ '\x7d' r2
      if 0 < lastBrace then jsonParse (r2.take (lastBrace.toNat + 1))
      else none

/-- The wrapper `stripMarkdown`: the regex `/\x7b[\s\S]*\x7d/` keeps the segment from
the first open brace to the last close brace when the latter comes after
the former, else the text is returned unchanged. -/
def stripMarkdown (text : List Char) : List Char :=
  match text.findIdx? (fun c => c = '\x7b'), lastIdxO '\x7d' text with
  | some i, some j => if i < j then (text.drop i).take (j - i + 1) else text
  | _, _ => text

/-- The composition applied to every raw response text in `analyzeUIScreen`:
`tryParsePartialJSON(stripMarkdown(text))`. -/
def recoverParse (text : List Char) : Option Json :=
  tryParsePartialJSON (stripMarkdown text)

/-- A truncated nested object that already ends in a closing brace. -/
def exTruncated : List Char :=
  ['\x7b', '"', 'a', '"', ':', '\x7b', '"', 'b', '"', ':', '1', '\x7d']

/-- A truncated object with no closing brace at all. -/
def exNoTrailing : List Char := ['\x7b', '"', 'a', '"', ':', '1']

/-! ## Timed model of the waits (C9) -/

/-- Completion time of the `wait` helper of the Analysis Client (line 114)
and of the inter-tile cooldown sleep (`handleScan` line 256): both are bare
`setTimeout` promises that receive no cancellation signal and register no
abort listener, so the promise resolves exactly when the timer fires,
regardless of any pending cancellation request `abortAt`. -/
def waitCompletesAt (start ms : ℕ) (abortAt : Option ℕ) : ℕ := start + ms

/-- Time at which a cancellation requested at `abortAt` is observed around
the inter-tile cooldown reached at time `t`: at the loop-top check (time
`t`) when already pending, otherwise at the first abort check after the
cooldown timer completes (the pre-attempt check of the next analysis
call). -/
def cooldownCancelObservedAt (t abortAt : ℕ) : ℕ :=
  if abortAt ≤ t then t else waitCompletesAt t 5000 (some abortAt)

/-- Same for the retry backoff sleep of retry `k` started at time `t`: the
next abort check runs when the sleep completes. -/
def backoffCancelObservedAt (t k abortAt : ℕ) : ℕ :=
  if abortAt ≤ t then t else waitCompletesAt t (k * 5000) (some abortAt)

/-! ## Partitioner lemmas -/

/-- Bounds of the tile count in the multi-tile case: the last tile reaches
the bottom of the image, its offset is strictly inside the image, and the
count is positive. -/
theorem numTiles_bounds (H : ℕ) (hH : 1536 < H) :
    H ≤ numTiles H * 1386 + 150 ∧ (numTiles H - 1) * 1386 + 150 < H ∧ 0 < numTiles H := by
  simp only [numTiles, effectiveTileHeight, maxTileHeight, overlapRows]
  rw [if_neg (by omega)]
  omega

/-- The offset of every tile index below the tile count lies inside the
image, and offset plus height never exceeds the image height. -/
theorem tile_inside (H i : ℕ) (hH : 0 < H) (hi : i < numTiles H) :
    tileOffset i + tileHeight H i ≤ H := by
  simp only [tileOffset, tileHeight, effectiveTileHeight, maxTileHeight, overlapRows]
  by_cases hsmall : H ≤ 1536
  · have h1 : numTiles H = 1 := by
      simp only [numTiles, maxTileHeight]
      rw [if_pos hsmall]
    rw [h1] at hi
    interval_cases i
    omega
  · have hb := numTiles_bounds H (by omega)
    have hle : i ≤ numTiles H - 1 := by omega
    have := Nat.mul_le_mul_right 1386 hle
    omega

/-- C5: for every full image height `H` with tile height 1536 and overlap
150, the tile count is 1 when `H ≤ 1536` and `⌈(H − 150) / 1386⌉`
otherwise; tile `i` has offset `i·1386` and height `min 1536 (H − offset)`;
the tiles fully cover `[0, H)` with no gap; and every pair of consecutive
tiles overlaps by exactly 150 rows (only the last tile may be shorter than
1536). -/
theorem c5_partitioner (H : ℕ) :
    (H ≤ maxTileHeight → numTiles H = 1) ∧
    (maxTileHeight < H →
      (numTiles H : ℤ) = ⌈((H : ℚ) - (overlapRows : ℚ)) / ((maxTileHeight : ℚ) - (overlapRows : ℚ))⌉) ∧
    (∀ i, tileOffset i = i * (maxTileHeight - overlapRows)) ∧
    (∀ i, tileHeight H i = min maxTileHeight (H - tileOffset i)) ∧
    (∀ y, y < H → ∃ i, i < numTiles H ∧ tileOffset i ≤ y ∧ y < tileOffset i + tileHeight H i) ∧
    (∀ i, i + 1 < numTiles H → tileOffset i + tileHeight H i = tileOffset (i + 1) + overlapRows) := by
  refine ⟨?_, ?_, fun i => rfl, fun i => rfl, ?_, ?_⟩
  · intro h
    simp only [numTiles]
    rw [if_pos h]
  · intro hH
    have hH' : 1536 < H := hH
    have hb := numTiles_bounds H hH'
    have h1386 : (0 : ℚ) < 1386 := by norm_num
    have hcast : ((maxTileHeight : ℚ) - (overlapRows : ℚ)) = 1386 := by
      norm_num [maxTileHeight, overlapRows]
    have hover : ((overlapRows : ℕ) : ℚ) = 150 := by norm_num [overlapRows]
    rw [hcast, hover]
    symm
    rw [Int.ceil_eq_iff]
    constructor
    · rw [lt_div_iff h1386]
      have h2 : (numTiles H - 1) * 1386 + 150 < H := hb.2.1
      have h3 : 0 < numTiles H := hb.2.2
      have : ((numTiles H - 1 : ℕ) : ℚ) = (numTiles H : ℚ) - 1 := by
        push_cast [Nat.cast_sub h3]
        ring
      have h4 : (((numTiles H - 1) * 1386 + 150 : ℕ) : ℚ) < (H : ℚ) := by exact_mod_cast h2
      push_cast at h4
      rw [this] at h4
      push_cast
      linarith
    · rw [div_le_iff h1386]
      have h1 : H ≤ numTiles H * 1386 + 150 := hb.1
      have h4 : (H : ℚ) ≤ ((numTiles H * 1386 + 150 : ℕ) : ℚ) := by exact_mod_cast h1
      push_cast at h4
      push_cast
      linarith
  · intro y hy
    by_cases hsmall : H ≤ 1536
    · refine ⟨0, ?_, ?_, ?_⟩
      · simp only [numTiles, maxTileHeight]
        rw [if_pos hsmall]
        omega
      · simp [tileOffset]
      · simp only [tileOffset, tileHeight, effectiveTileHeight, maxTileHeight, overlapRows]
        omega
    · have hb := numTiles_bounds H (by omega)
      by_cases hylast : y < (numTiles H - 1) * 1386
      · refine ⟨y / 1386, ?_, ?_, ?_⟩
        · omega
        · simp only [tileOffset, effectiveTileHeight, maxTileHeight, overlapRows]
          omega
        · simp only [tileOffset, tileHeight, effectiveTileHeight, maxTileHeight, overlapRows]
          omega
      · refine ⟨numTiles H - 1, ?_, ?_, ?_⟩
        · omega
        · simp only [tileOffset, effectiveTileHeight, maxTileHeight, overlapRows]
          omega
        · simp only [tileOffset, tileHeight, effectiveTileHeight, maxTileHeight, overlapRows]
          omega
  · intro i hi
    by_cases hsmall : H ≤ 1536
    · have h1 : numTiles H = 1 := by
        simp only [numTiles, maxTileHeight]
        rw [if_pos hsmall]
      omega
    · have hb := numTiles_bounds H (by omega)
      have hle : i + 1 ≤ numTiles H - 1 := by omega
      have := Nat.mul_le_mul_right 1386 hle
      simp only [tileOffset, tileHeight, effectiveTileHeight, maxTileHeight, overlapRows]
      omega

/-- Witness for C5 at concrete heights: a 1000-row image is a single tile;
a 2922-row image has ⌈(2922−150)/1386⌉ = 2 tiles; row 2000 of it is covered
by tile 1; tiles 0 and 1 overlap by exactly 150 rows. -/
theorem c5_partitioner_witness :
    numTiles 1000 = 1 ∧
    (numTiles 2922 : ℤ) = ⌈((2922 : ℚ) - (overlapRows : ℚ)) / ((maxTileHeight : ℚ) - (overlapRows : ℚ))⌉ ∧
    (∃ i, i < numTiles 2922 ∧ tileOffset i ≤ 2000 ∧ 2000 < tileOffset i + tileHeight 2922 i) ∧
    tileOffset 0 + tileHeight 2922 0 = tileOffset 1 + overlapRows := by
  refine ⟨(c5_partitioner 1000).1 (by decide), ?_, ?_, ?_⟩
  · have h := (c5_partitioner 2922).2.1 (by decide)
    simpa using h
  · exact (c5_partitioner 2922).2.2.2.2.1 2000 (by decide)
  · exact (c5_partitioner 2922).2.2.2.2.2 0 (by decide)

/-! ## Coordinate Remapper -/

/-- C6 counterexample: the claimed concrete example is false on the code:
a box at local y = 1000 in a tile with offset 500, height 1000, full height
2000 remaps to global y = 750 (row 1500 of 2000), not 1000. -/
theorem c6_counterexample :
    remapY 1000 1000 500 2000 = 750 ∧ remapY 1000 1000 500 2000 ≠ 1000 := by
  norm_num [remapY]

/-- C6 (amended): for every tile-local box component in [0,1000] and every
tile produced by the Partitioner, the remapped global y is
`((local_y / 1000 · h) + offset) / H · 1000`, x components pass through
unchanged, the result stays within [0,1000], a box in tile 0 of a
single-tile image maps to itself, and local y = 1000 with offset 500,
h = 1000, H = 2000 maps to global y = 750. -/
theorem c6_remapper (H i : ℕ) (hH : 0 < H) (hi : i < numTiles H)
    (ly : ℚ) (hly0 : 0 ≤ ly) (hly1 : ly ≤ 1000) :
    (∀ cs : List ℚ,
      remapBox (H : ℚ) ((tileOffset i : ℕ) : ℚ) ((tileHeight H i : ℕ) : ℚ) cs
        = [remapY (coordAt cs 0) ((tileHeight H i : ℕ) : ℚ) ((tileOffset i : ℕ) : ℚ) (H : ℚ),
           coordAt cs 1,
           remapY (coordAt cs 2) ((tileHeight H i : ℕ) : ℚ) ((tileOffset i : ℕ) : ℚ) (H : ℚ),
           coordAt cs 3]) ∧
    0 ≤ remapY ly ((tileHeight H i : ℕ) : ℚ) ((tileOffset i : ℕ) : ℚ) (H : ℚ) ∧
    remapY ly ((tileHeight H i : ℕ) : ℚ) ((tileOffset i : ℕ) : ℚ) (H : ℚ) ≤ 1000 ∧
    (H ≤ maxTileHeight → remapY ly ((tileHeight H 0 : ℕ) : ℚ) ((tileOffset 0 : ℕ) : ℚ) (H : ℚ) = ly) ∧
    remapY 1000 1000 500 2000 = 750 := by
  have hHpos : (0 : ℚ) < (H : ℚ) := by exact_mod_cast hH
  have hsum : ((tileOffset i : ℕ) : ℚ) + ((tileHeight H i : ℕ) : ℚ) ≤ (H : ℚ) := by
    exact_mod_cast tile_inside H i hH hi
  have ho : (0 : ℚ) ≤ ((tileOffset i : ℕ) : ℚ) := Nat.cast_nonneg _
  have hh : (0 : ℚ) ≤ ((tileHeight H i : ℕ) : ℚ) := Nat.cast_nonneg _
  have hdiv : ly / 1000 ≤ 1 := by
    rw [div_le_one (by norm_num)]
    exact hly1
  have hnum : ly / 1000 * ((tileHeight H i : ℕ) : ℚ) + ((tileOffset i : ℕ) : ℚ) ≤ (H : ℚ) := by
    have h1 : ly / 1000 * ((tileHeight H i : ℕ) : ℚ) ≤ 1 * ((tileHeight H i : ℕ) : ℚ) :=
      mul_le_mul_of_nonneg_right hdiv hh
    rw [one_mul] at h1
    linarith
  refine ⟨fun cs => rfl, ?_, ?_, ?_, by norm_num [remapY]⟩
  · have h1 : 0 ≤ ly / 1000 := div_nonneg hly0 (by norm_num)
    have h2 : 0 ≤ ly / 1000 * ((tileHeight H i : ℕ) : ℚ) := mul_nonneg h1 hh
    have h3 : 0 ≤ (ly / 1000 * ((tileHeight H i : ℕ) : ℚ) + ((tileOffset i : ℕ) : ℚ)) / (H : ℚ) :=
      div_nonneg (by linarith) hHpos.le
    simpa [remapY] using mul_nonneg h3 (by norm_num : (0:ℚ) ≤ 1000)
  · have h3 : (ly / 1000 * ((tileHeight H i : ℕ) : ℚ) + ((tileOffset i : ℕ) : ℚ)) / (H : ℚ) ≤ 1 :=
      (div_le_one hHpos).mpr hnum
    have h4 := mul_le_mul_of_nonneg_right h3 (by norm_num : (0:ℚ) ≤ 1000)
    rw [one_mul] at h4
    simpa [remapY] using h4
  · intro hsm
    have hsm' : H ≤ 1536 := hsm
    have h0 : tileHeight H 0 = H := by
      simp only [tileHeight, tileOffset, maxTileHeight, effectiveTileHeight, overlapRows]
      omega
    have h1 : tileOffset 0 = 0 := by simp [tileOffset]
    rw [h0, h1]
    simp only [remapY, Nat.cast_zero, add_zero]
    field_simp
    ring

/-- Witness for C6 (amended) at `H = 2000`, tile 1, local y = 1000:
the remapped value lies in [0,1000]. -/
theorem c6_remapper_witness :
    0 ≤ remapY 1000 ((tileHeight 2000 1 : ℕ) : ℚ) ((tileOffset 1 : ℕ) : ℚ) ((2000 : ℕ) : ℚ) ∧
    remapY 1000 ((tileHeight 2000 1 : ℕ) : ℚ) ((tileOffset 1 : ℕ) : ℚ) ((2000 : ℕ) : ℚ) ≤ 1000 := by
  have h := c6_remapper 2000 1 (by decide) (by decide) 1000 (by norm_num) (by norm_num)
  exact ⟨h.2.1, h.2.2.1⟩

/-! ## String lemmas for the Price Normalizer -/

theorem lastIdxO_eq_none (c : Char) (l : List Char) : lastIdxO c l = none ↔ c ∉ l := by
  induction l with
  | nil => simp [lastIdxO]
  | cons x xs ih =>
    simp only [lastIdxO]
    cases h : lastIdxO c xs with
    | some j =>
      have hmem : c ∈ xs := by
        by_contra hn
        rw [← ih] at hn
        rw [h] at hn
        exact Option.noConfusion hn
      simp [hmem]
    | none =>
      have hnotmem : c ∉ xs := ih.mp h
      by_cases hx : x = c
      · subst hx
        simp
      · simp [hx, hnotmem, Ne.symm hx]

theorem lastIdxZ_eq_neg (c : Char) (l : List Char) : lastIdxZ c l = -1 ↔ c ∉ l := by
  unfold lastIdxZ
  cases h : lastIdxO c l with
  | none => simp [(lastIdxO_eq_none c l).mp h]
  | some j =>
    have hmem : c ∈ l := by
      by_contra hn
      rw [← lastIdxO_eq_none] at hn
      rw [h] at hn
      exact Option.noConfusion hn
    simp only [hmem, not_true_eq_false, iff_false]
    omega

theorem lastIdxO_append (c : Char) (A B : List Char) (hB : c ∉ B) :
    lastIdxO c (A ++ c :: B) = some A.length := by
  induction A with
  | nil =>
    simp only [List.nil_append, lastIdxO, (lastIdxO_eq_none c B).mpr hB]
    simp
  | cons x xs ih =>
    simp only [List.cons_append, lastIdxO, List.append_eq, ih, List.length_cons]

theorem map_swap_eq_self (c d : Char) (l : List Char) (h : c ∉ l) :
    l.map (fun x => if x = c then d else x) = l := by
  induction l with
  | nil => rfl
  | cons x xs ih =>
    have hx : x ≠ c := fun he => h (he ▸ List.mem_cons_self x xs)
    simp only [List.map_cons, if_neg hx]
    rw [ih (fun hm => h (List.mem_cons_of_mem x hm))]

theorem replaceFirst_eq_map (c d : Char) (l : List Char) (h : l.count c ≤ 1) :
    replaceFirst c d l = l.map (fun x => if x = c then d else x) := by
  induction l with
  | nil => rfl
  | cons x xs ih =>
    by_cases hx : x = c
    · subst hx
      have hcount : xs.count x = 0 := by
        have := List.count_cons_self x xs
        omega
      have hnot : x ∉ xs := List.count_eq_zero.mp hcount
      simp [replaceFirst, map_swap_eq_self x d xs hnot]
    · have hcount : xs.count c ≤ 1 := by
        have := List.count_cons c x xs
        have hne : ¬ x = c := hx
        simp [hne] at this
        omega
      simp [replaceFirst, hx, ih hcount]

theorem filter_ne_of_not_mem (c : Char) (l : List Char) (h : c ∉ l) :
    l.filter (fun y => y ≠ c) = l := by
  induction l with
  | nil => rfl
  | cons x xs ih =>
    have hx : x ≠ c := fun he => h (he ▸ List.mem_cons_self x xs)
    have hxs : c ∉ xs := fun hm => h (List.mem_cons_of_mem x hm)
    simp [List.filter_cons, hx, ih hxs]
    exact fun a ha he => hxs (he ▸ ha)

theorem removeFirst_eq_filter (c : Char) (l : List Char) (h : l.count c ≤ 1) :
    removeFirst c l = l.filter (fun x => x ≠ c) := by
  induction l with
  | nil => rfl
  | cons x xs ih =>
    by_cases hx : x = c
    · subst hx
      have hcount : xs.count x = 0 := by
        have := List.count_cons_self x xs
        omega
      have hnot : x ∉ xs := List.count_eq_zero.mp hcount
      have hfil := filter_ne_of_not_mem x xs hnot
      simp only [ne_eq, decide_not] at hfil
      simp [removeFirst, List.filter_cons, hfil]
    · have hcount : xs.count c ≤ 1 := by
        have := List.count_cons c x xs
        have hne : ¬ x = c := hx
        simp [hne] at this
        omega
      simp [removeFirst, hx, List.filter_cons, ih hcount]

theorem mem_of_containsSub (pat s : List Char) (c : Char) (hc : c ∈ pat)
    (h : containsSub pat s = true) : c ∈ s := by
  unfold containsSub at h
  rw [List.any_eq_true] at h
  obtain ⟨i, _, hi⟩ := h
  rw [beq_iff_eq] at hi
  have hmem : c ∈ (s.drop i).take pat.length := by rw [hi]; exact hc
  exact List.mem_of_mem_drop (List.mem_of_mem_take hmem)

theorem trimList_ne_nil (s : List Char) (c : Char) (hc : c ∈ s)
    (hns : isSpaceChar c = false) : (trimList s).isEmpty = false := by
  rw [List.isEmpty_eq_false_iff_exists_mem]
  by_contra hempty
  push_neg at hempty
  have hnil : trimList s = [] := List.eq_nil_iff_forall_not_mem.mpr hempty
  unfold trimList at hnil
  rw [List.reverse_eq_nil_iff, List.dropWhile_eq_nil_iff] at hnil
  have hall : ∀ x ∈ s.dropWhile isSpaceChar, isSpaceChar x = true := by
    intro x hx
    exact hnil x (List.mem_reverse.mpr hx)
  have hall2 : ∀ x ∈ s, isSpaceChar x = true := by
    intro x hx
    rw [← List.takeWhile_append_dropWhile (p := isSpaceChar) (l := s)] at hx
    rcases List.mem_append.mp hx with h1 | h2
    · exact List.mem_takeWhile_imp h1
    · exact hall x h2
  rw [hall2 c hc] at hns
  exact Bool.noConfusion hns

theorem lowerChar_not_space (c : Char) (h : lowerChar c = 'f' ∨ lowerChar c = 'g') :
    isSpaceChar c = false := by
  by_contra hsp
  rw [Bool.not_eq_false] at hsp
  have h4 : ((c = ' ' ∨ c = '\t') ∨ c = '\n') ∨ c = '\r' := by
    simpa [isSpaceChar] using hsp
  rcases h4 with ((rfl | rfl) | rfl) | rfl <;> revert h <;> decide

theorem count_split (c : Char) (l : List Char) (hmem : c ∈ l) (h : l.count c ≤ 1) :
    ∃ A B, l = A ++ c :: B ∧ c ∉ A ∧ c ∉ B := by
  obtain ⟨A, B, rfl⟩ := List.append_of_mem hmem
  refine ⟨A, B, rfl, ?_, ?_⟩
  · intro hA
    have h1 : 1 ≤ A.count c := List.count_pos_iff.mpr hA
    have h2 := List.count_append c A (c :: B)
    have h3 := List.count_cons_self c B
    omega
  · intro hB
    have h1 : 1 ≤ B.count c := List.count_pos_iff.mpr hB
    have h2 := List.count_append c A (c :: B)
    have h3 := List.count_cons_self c B
    omega

/-- C10: for every input whose lowercased text contains "free" or "gratis"
as a substring anywhere — not only as a whole word, and even alongside an
explicit price — the Price Normalizer returns 0. -/
theorem c10_free_gratis (s : List Char)
    (h : containsSub freeWord (s.map lowerChar) = true ∨
         containsSub gratisWord (s.map lowerChar) = true) :
    cleanPrice s = some 0 := by
  have hex : ∃ c ∈ s, isSpaceChar c = false := by
    rcases h with h | h
    · have hf : 'f' ∈ s.map lowerChar := mem_of_containsSub freeWord _ 'f' (by decide) h
      obtain ⟨c, hc, hlc⟩ := List.mem_map.mp hf
      exact ⟨c, hc, lowerChar_not_space c (Or.inl hlc)⟩
    · have hg : 'g' ∈ s.map lowerChar := mem_of_containsSub gratisWord _ 'g' (by decide) h
      obtain ⟨c, hc, hlc⟩ := List.mem_map.mp hg
      exact ⟨c, hc, lowerChar_not_space c (Or.inr hlc)⟩
  obtain ⟨c, hc, hcs⟩ := hex
  have htrim : (trimList s).isEmpty = false := trimList_ne_nil s c hc hcs
  have hse : s.isEmpty = false := by
    cases s with
    | nil => cases hc
    | cons a l => rfl
  unfold cleanPrice
  rw [hse, htrim]
  rcases h with h | h <;> simp [h]

/-- Witness for C10: "Free trial, then $9.99" normalizes to 0 although it
carries an explicit price. -/
theorem c10_free_gratis_witness : cleanPrice ("Free trial, then $9.99".data) = some 0 :=
  c10_free_gratis ("Free trial, then $9.99".data) (Or.inl (by decide))

/-! ## Separator disambiguation versus its specification -/

theorem lastIdxZ_append_of_not_mem (c : Char) (A B : List Char) (hB : c ∉ B) :
    lastIdxZ c (A ++ c :: B) = (A.length : Int) := by
  unfold lastIdxZ
  rw [lastIdxO_append c A B hB]

theorem drop_after_sep (c : Char) (A B : List Char) :
    (A ++ c :: B).drop (A.length + 1) = B := by
  have h1 : A ++ c :: B = (A ++ [c]) ++ B := by simp
  have h2 : (A ++ [c]).length = A.length + 1 := by simp
  rw [h1, ← h2, List.drop_left]

/-- The separator stage agrees with the specification's rule whenever each
separator kind occurs at most once in the extracted numeral sequence. -/
theorem cleanSeparators_refines (raw : List Char)
    (hall : ∀ c ∈ raw, isNumChar c = true)
    (hc : raw.count ',' ≤ 1) (hd : raw.count '.' ≤ 1) :
    cleanSeparators raw = specSeparators raw := by
  by_cases hmc : ',' ∈ raw <;> by_cases hmd : '.' ∈ raw
  · -- both separators present
    have h1 : lastIdxZ ',' raw ≠ -1 := fun he => ((lastIdxZ_eq_neg ',' raw).mp he) hmc
    have h2 : lastIdxZ '.' raw ≠ -1 := fun he => ((lastIdxZ_eq_neg '.' raw).mp he) hmd
    have hcand : lastIdxZ ',' raw ≠ -1 ∧ lastIdxZ '.' raw ≠ -1 := ⟨h1, h2⟩
    have hmand : (',' ∈ raw) ∧ ('.' ∈ raw) := ⟨hmc, hmd⟩
    by_cases hcmp : lastIdxZ ',' raw > lastIdxZ '.' raw
    · have hL : cleanSeparators raw = replaceFirst ',' '.' (raw.filter (fun c => c ≠ '.')) := by
        simp only [cleanSeparators]
        rw [if_pos hcand, if_pos hcmp]
      have hR : specSeparators raw
          = (raw.filter (fun c => c ≠ '.')).map (fun c => if c = ',' then '.' else c) := by
        simp only [specSeparators]
        rw [if_pos hmand, if_pos hcmp]
      rw [hL, hR]
      exact replaceFirst_eq_map ',' '.' _ (le_trans ((List.filter_sublist raw).count_le ',') hc)
    · have hL : cleanSeparators raw = raw.filter (fun c => c ≠ ',') := by
        simp only [cleanSeparators]
        rw [if_pos hcand, if_neg hcmp]
      have hR : specSeparators raw = raw.filter (fun c => c ≠ ',') := by
        simp only [specSeparators]
        rw [if_pos hmand, if_neg hcmp]
      rw [hL, hR]
  · -- comma only
    have h1 : lastIdxZ ',' raw ≠ -1 := fun he => ((lastIdxZ_eq_neg ',' raw).mp he) hmc
    have h2 : lastIdxZ '.' raw = -1 := (lastIdxZ_eq_neg '.' raw).mpr hmd
    obtain ⟨A, B, rfl, hA, hB⟩ := count_split ',' raw hmc hc
    have hlz := lastIdxZ_append_of_not_mem ',' A B hB
    have hlo := lastIdxO_append ',' A B hB
    have hdropB := drop_after_sep ',' A B
    have hBdig : B.all Char.isDigit = true := by
      rw [List.all_eq_true]
      intro b hb
      have hnum := hall b (List.mem_append_right A (List.mem_cons_of_mem _ hb))
      have hbne : ¬ b = ',' := fun he => hB (he ▸ hb)
      have hbnd : ¬ b = '.' := fun he =>
        hmd (List.mem_append_right A (List.mem_cons_of_mem _ (he ▸ hb)))
      simpa [isNumChar, hbne, hbnd] using hnum
    have hcode : (((A ++ ',' :: B).length : Int) - 1 - lastIdxZ ',' (A ++ ',' :: B) = 2)
        ↔ B.length = 2 := by
      rw [hlz]
      simp only [List.length_append, List.length_cons]
      omega
    have hspec : twoDigitsAfterLast ',' (A ++ ',' :: B) = true ↔ B.length = 2 := by
      unfold twoDigitsAfterLast
      rw [hlo]
      show (decide (((A ++ ',' :: B).drop (A.length + 1)).length = 2) &&
        ((A ++ ',' :: B).drop (A.length + 1)).all Char.isDigit) = true ↔ B.length = 2
      rw [hdropB, hBdig]
      simp
    have hnand : ¬ (lastIdxZ ',' (A ++ ',' :: B) ≠ -1 ∧ lastIdxZ '.' (A ++ ',' :: B) ≠ -1) :=
      fun hand => hand.2 h2
    have hnmand : ¬ ((',' ∈ A ++ ',' :: B) ∧ ('.' ∈ A ++ ',' :: B)) := fun hand => hmd hand.2
    have hL1 : cleanSeparators (A ++ ',' :: B)
        = if ((A ++ ',' :: B).length : Int) - 1 - lastIdxZ ',' (A ++ ',' :: B) = 2
          then replaceFirst ',' '.' (A ++ ',' :: B) else removeFirst ',' (A ++ ',' :: B) := by
      simp only [cleanSeparators]
      rw [if_neg hnand, if_pos h1]
    have hR1 : specSeparators (A ++ ',' :: B)
        = if twoDigitsAfterLast ',' (A ++ ',' :: B) = true
          then (A ++ ',' :: B).map (fun c => if c = ',' then '.' else c)
          else (A ++ ',' :: B).filter (fun c => c ≠ ',') := by
      simp only [specSeparators]
      rw [if_neg hnmand, if_pos hmc]
    rw [hL1, hR1]
    by_cases hlen : B.length = 2
    · rw [if_pos (hcode.mpr hlen), if_pos (hspec.mpr hlen)]
      exact replaceFirst_eq_map ',' '.' _ hc
    · rw [if_neg (fun hcond => hlen (hcode.mp hcond)),
        if_neg (fun hcond => hlen (hspec.mp hcond))]
      exact removeFirst_eq_filter ',' _ hc
  · -- dot only
    have h1 : lastIdxZ ',' raw = -1 := (lastIdxZ_eq_neg ',' raw).mpr hmc
    have h2 : lastIdxZ '.' raw ≠ -1 := fun he => ((lastIdxZ_eq_neg '.' raw).mp he) hmd
    obtain ⟨A, B, rfl, hA, hB⟩ := count_split '.' raw hmd hd
    have hlz := lastIdxZ_append_of_not_mem '.' A B hB
    have hlo := lastIdxO_append '.' A B hB
    have hdropB := drop_after_sep '.' A B
    have hBdig : B.all Char.isDigit = true := by
      rw [List.all_eq_true]
      intro b hb
      have hnum := hall b (List.mem_append_right A (List.mem_cons_of_mem _ hb))
      have hbnd : ¬ b = '.' := fun he => hB (he ▸ hb)
      have hbne : ¬ b = ',' := fun he =>
        hmc (List.mem_append_right A (List.mem_cons_of_mem _ (he ▸ hb)))
      simpa [isNumChar, hbne, hbnd] using hnum
    have hcode : (((A ++ '.' :: B).length : Int) - 1 - lastIdxZ '.' (A ++ '.' :: B) = 2)
        ↔ B.length = 2 := by
      rw [hlz]
      simp only [List.length_append, List.length_cons]
      omega
    have hspec : twoDigitsAfterLast '.' (A ++ '.' :: B) = true ↔ B.length = 2 := by
      unfold twoDigitsAfterLast
      rw [hlo]
      show (decide (((A ++ '.' :: B).drop (A.length + 1)).length = 2) &&
        ((A ++ '.' :: B).drop (A.length + 1)).all Char.isDigit) = true ↔ B.length = 2
      rw [hdropB, hBdig]
      simp
    have hnand : ¬ (lastIdxZ ',' (A ++ '.' :: B) ≠ -1 ∧ lastIdxZ '.' (A ++ '.' :: B) ≠ -1) :=
      fun hand => hand.1 h1
    have hnc : ¬ lastIdxZ ',' (A ++ '.' :: B) ≠ -1 := fun hcond => hcond h1
    have hnmand : ¬ ((',' ∈ A ++ '.' :: B) ∧ ('.' ∈ A ++ '.' :: B)) := fun hand => hmc hand.1
    have hL1 : cleanSeparators (A ++ '.' :: B)
        = if ((A ++ '.' :: B).length : Int) - 1 - lastIdxZ '.' (A ++ '.' :: B) = 2
          then (A ++ '.' :: B) else (A ++ '.' :: B).filter (fun c => c ≠ '.') := by
      simp only [cleanSeparators]
      rw [if_neg hnand, if_neg hnc, if_pos h2]
    have hR1 : specSeparators (A ++ '.' :: B)
        = if twoDigitsAfterLast '.' (A ++ '.' :: B) = true
          then (A ++ '.' :: B) else (A ++ '.' :: B).filter (fun c => c ≠ '.') := by
      simp only [specSeparators]
      rw [if_neg hnmand, if_neg hmc, if_pos hmd]
    rw [hL1, hR1]
    by_cases hlen : B.length = 2
    · rw [if_pos (hcode.mpr hlen), if_pos (hspec.mpr hlen)]
    · rw [if_neg (fun hcond => hlen (hcode.mp hcond)),
        if_neg (fun hcond => hlen (hspec.mp hcond))]
  · -- no separator at all
    have h1 : lastIdxZ ',' raw = -1 := (lastIdxZ_eq_neg ',' raw).mpr hmc
    have h2 : lastIdxZ '.' raw = -1 := (lastIdxZ_eq_neg '.' raw).mpr hmd
    have hnand : ¬ (lastIdxZ ',' raw ≠ -1 ∧ lastIdxZ '.' raw ≠ -1) := fun hand => hand.1 h1
    have hnc : ¬ lastIdxZ ',' raw ≠ -1 := fun hcond => hcond h1
    have hnd : ¬ lastIdxZ '.' raw ≠ -1 := fun hcond => hcond h2
    have hnmand : ¬ ((',' ∈ raw) ∧ ('.' ∈ raw)) := fun hand => hmc hand.1
    have hL : cleanSeparators raw = raw := by
      simp only [cleanSeparators]
      rw [if_neg hnand, if_neg hnc, if_neg hnd]
    have hR : specSeparators raw = raw := by
      simp only [specSeparators]
      rw [if_neg hnmand, if_neg hmc, if_neg hmd]
    rw [hL, hR]

unseal Rat.mul Rat.add Rat.sub Rat.inv Rat.ofScientific in
/-- C7 counterexample: the extracted numeral sequence of "1,234,567"
carries two lone commas with three digits after the last one; the claimed
rule removes every comma (value 1234567), but the code removes only the
first occurrence and `parseFloat` stops at the second: the result is 1234. -/
theorem c7_counterexample :
    cleanPrice exMillion = some (1234 : ℚ) ∧ cleanPrice exMillion ≠ some (1234567 : ℚ) := by
  decide

unseal Rat.mul Rat.add Rat.sub Rat.inv Rat.ofScientific in
/-- C7 (amended): the separator-disambiguation rules hold as claimed
whenever each separator kind occurs at most once in the extracted numeral
sequence; with repeated occurrences only the first occurrence of the
decimal-designated separator is converted (and only the first occurrence of
a lone thousands comma is removed, numeric parsing stopping at the next).
In particular cleanPrice "$1,234.56" = 1234.56,
cleanPrice "1.234,56 €" = 1234.56, and cleanPrice "1,234,567" = 1234. -/
theorem c7_price_normalizer :
    (∀ raw : List Char, (∀ c ∈ raw, isNumChar c = true) →
      raw.count ',' ≤ 1 → raw.count '.' ≤ 1 →
      cleanSeparators raw = specSeparators raw) ∧
    cleanPrice exDollar = some (1234.56 : ℚ) ∧
    cleanPrice exEuro = some (1234.56 : ℚ) ∧
    cleanPrice exMillion = some (1234 : ℚ) :=
  ⟨cleanSeparators_refines, by decide, by decide, by decide⟩

unseal Rat.mul Rat.add Rat.sub Rat.inv Rat.ofScientific in
/-- Witness for C7 (amended): the refinement applied to the concrete
sequence "1,23" (a decimal comma), plus the dollar example. -/
theorem c7_price_normalizer_witness :
    cleanSeparators ['1', ',', '2', '3'] = specSeparators ['1', ',', '2', '3'] ∧
    cleanPrice exDollar = some (1234.56 : ℚ) :=
  ⟨c7_price_normalizer.1 ['1', ',', '2', '3'] (by decide) (by decide) (by decide),
   c7_price_normalizer.2.1⟩

/-! ## Catalog Reconciliation: the violation flag -/

unseal Rat.mul Rat.add Rat.sub Rat.inv Rat.ofScientific in
/-- C2 counterexample: within one session the flag is set by the 12-after-10
merge and cleared again by a later sighting reverting to 10 — the
reconciliation merge recomputes the flag and does un-flag. -/
theorem c2_counterexample :
    c2Cat2.map CatalogAnchor.is_violation = [true] ∧
    c2Cat3.map CatalogAnchor.is_violation = [false] := by
  decide

unseal Rat.mul Rat.add Rat.sub Rat.inv Rat.ofScientific in
/-- C2 (amended): at every matching merge the violation flag is recomputed
from scratch: it is set exactly when the incoming numeric price differs
from the stored baseline by more than 0.01, regardless of the previously
stored flag (a sighting within 0.01 of the baseline clears the flag). -/
theorem c2_flag_recomputed (cat : List CatalogAnchor) (inA existing : CatalogAnchor) (i : ℕ)
    (hm : findMatchIdx cat inA = some i) (hg : cat.get? i = some existing) :
    ((mergeOne cat inA).get? i).map CatalogAnchor.is_violation
      = some (decide ((0.01 : ℚ) < |inA.numeric_price.getD 0
          - (existing.original_numeric_price <|> inA.numeric_price).getD 0|)) := by
  have hlt : i < cat.length := (List.get?_eq_some.mp hg).1
  simp only [mergeOne, hm, hg]
  simp only [List.get?_eq_getElem?, List.getElem?_set, hlt, if_pos, Option.map_some]
  cases hdp : decide ((0.01 : ℚ) < |inA.numeric_price.getD 0
      - (existing.original_numeric_price <|> inA.numeric_price).getD 0|) <;>
    cases hv : inA.is_violation <;> simp_all [gt_iff_lt]

unseal Rat.mul Rat.add Rat.sub Rat.inv Rat.ofScientific in
/-- Witness for C2 (amended): a reverting sighting at the stored catalog:
the recomputed flag is the 0.01 test at equal prices, i.e. cleared. -/
theorem c2_flag_recomputed_witness :
    ((mergeOne c2Cat2 (obsSku1At 10 ("$10.00".data))).get? 0).map CatalogAnchor.is_violation
      = some (decide ((0.01 : ℚ) < |(obsSku1At 10 ("$10.00".data)).numeric_price.getD 0
          - (c2ExistingAnchor.original_numeric_price
            <|> (obsSku1At 10 ("$10.00".data)).numeric_price).getD 0|)) :=
  c2_flag_recomputed c2Cat2 (obsSku1At 10 ("$10.00".data)) c2ExistingAnchor 0
    (by decide) (by decide)

/-! ## End-to-end two-tile scenario (C1) -/

unseal Rat.mul Rat.add Rat.sub Rat.inv Rat.ofScientific in
/-- C1: on the two-tile session where tile 1 reports the anchor sku1 at
numeric price 10.00 and tile 2 reports it at 12.00 (visible, non-zero box,
no backend findings), the cumulative finding list contains exactly one
synthetic BAIT-AND-SWITCH High finding referencing that anchor — but the
final emitted Viewport Meta status is Safe, not Compromised as claimed: the
status fold consumes only the per-tile backend metrics, which are computed
from the backend-reported findings before the synthetic findings exist. -/
theorem c1_two_tile_run :
    c1Final.currentTotalScans.map DarkPatternScan.pattern_type = [baitSwitchLabel] ∧
    c1Final.currentTotalScans.map DarkPatternScan.severity = [Severity.High] ∧
    c1Final.currentTotalScans.map DarkPatternScan.truth_label
      = [("Widget".data) ++ priceHikedSuffix] ∧
    viewportMetaOf c1Final
      = { threat_count := 1, status := DefensiveStatus.Safe, advice := safeAdvice } ∧
    (viewportMetaOf c1Final).status ≠ DefensiveStatus.Compromised := by
  decide

/-! ## Coordinate clamping (C4) -/

unseal Rat.mul Rat.add Rat.sub Rat.inv Rat.ofScientific in
/-- C4 counterexample: a response whose anchor observation carries the box
[2000, −5, 3000, 500] leaves the Analysis Client with exactly those
coordinates: anchor observation coordinates are never clamped, so the
returned Scan Result carries the coordinate 2000 ∉ [0,1000]. -/
theorem c4_counterexample :
    (c4Resp.thought_signature.catalog_anchors.getD []).map CatalogAnchor.coordinates
      = [[2000, -5, 3000, 500]] ∧ ¬ ((2000 : ℚ) ≤ 1000) := by
  decide

theorem clampCoordinates_mem (coords : Option (List ℚ)) (c : ℚ)
    (hc : c ∈ clampCoordinates coords) : ∃ n : ℤ, c = (n : ℚ) ∧ 0 ≤ n ∧ n ≤ 1000 := by
  have hzero : c ∈ ([0, 0, 0, 0] : List ℚ) → ∃ n : ℤ, c = (n : ℚ) ∧ 0 ≤ n ∧ n ≤ 1000 := by
    intro h
    have hc0 : c = 0 := by
      simp only [List.mem_cons, List.not_mem_nil, or_false] at h
      rcases h with h | h | h | h <;> exact h
    exact ⟨0, by simp [hc0], le_refl 0, by norm_num⟩
  cases coords with
  | none =>
    simp only [clampCoordinates] at hc
    exact hzero hc
  | some cs =>
    simp only [clampCoordinates] at hc
    by_cases hlen : cs.length < 4
    · rw [if_pos hlen] at hc
      exact hzero hc
    · rw [if_neg hlen] at hc
      obtain ⟨x, _, rfl⟩ := List.mem_map.mp hc
      refine ⟨max 0 (min 1000 (jsRound x)), rfl, le_max_left _ _, ?_⟩
      exact max_le (by norm_num) (min_le_left _ _)

/-- C4 (amended): every coordinate of every finding in the returned Scan
Result is an integer clamped into [0,1000]; catalog anchor observation
coordinates are returned without clamping. -/
theorem c4_scan_coordinates_clamped (prev : FilteredSignature) (parsed : ParsedResponse)
    (s : DarkPatternScan) (hs : s ∈ (processParsed prev parsed).scans)
    (c : ℚ) (hc : c ∈ s.coordinates) :
    ∃ n : ℤ, c = (n : ℚ) ∧ 0 ≤ n ∧ n ≤ 1000 := by
  unfold processParsed at hs
  obtain ⟨r, _, rfl⟩ := List.mem_map.mp hs
  exact clampCoordinates_mem r.coordinates c hc

unseal Rat.mul Rat.add Rat.sub Rat.inv Rat.ofScientific in
/-- Witness for C4 (amended) at the wild-coordinates response: the
component 1000 of its clamped finding is an integer in [0,1000]. -/
theorem c4_scan_coordinates_clamped_witness :
    ∃ n : ℤ, (1000 : ℚ) = (n : ℚ) ∧ 0 ≤ n ∧ n ≤ 1000 :=
  c4_scan_coordinates_clamped c4Prev c4Parsed c4FirstScan (by decide) 1000 (by decide)

/-! ## Cancellation and the timers (C9) -/

/-- C9 counterexample: a cancellation requested at time 1, during the
cooldown that started at time 0 (and likewise during the first backoff
sleep), is observed only at time 5000, when the timer has fully elapsed —
not immediately. -/
theorem c9_counterexample :
    cooldownCancelObservedAt 0 1 = 5000 ∧ ¬ (cooldownCancelObservedAt 0 1 < 5000) ∧
    backoffCancelObservedAt 0 1 1 = 5000 ∧ ¬ (backoffCancelObservedAt 0 1 1 < 5000) := by
  decide

/-- C9 (amended): the cooldown and backoff sleeps are plain `setTimeout`
promises with no abort listener: they complete only after their full
duration whatever the cancellation request time, and a cancellation
requested strictly after the wait begins is observed only at the first
abort check after the timer elapses. -/
theorem c9_wait_not_abortable (t ms abortAt : ℕ) (h : t < abortAt) :
    waitCompletesAt t ms (some abortAt) = t + ms ∧
    cooldownCancelObservedAt t abortAt = t + 5000 ∧
    (∀ k, backoffCancelObservedAt t k abortAt = t + k * 5000) := by
  refine ⟨rfl, ?_, fun k => ?_⟩
  · unfold cooldownCancelObservedAt waitCompletesAt
    rw [if_neg (by omega)]
  · unfold backoffCancelObservedAt waitCompletesAt
    rw [if_neg (by omega)]

/-- Witness for C9 (amended) at start time 0, request time 1. -/
theorem c9_wait_not_abortable_witness :
    waitCompletesAt 0 5000 (some 1) = 0 + 5000 ∧ cooldownCancelObservedAt 0 1 = 0 + 5000 := by
  have h := c9_wait_not_abortable 0 5000 1 (by decide)
  exact ⟨h.1, h.2.1⟩

/-! ## Response recovery (C8) -/

/-- C8 counterexample: the truncated nested object `\x7b"a":\x7b"b":1\x7d`
fails strict parsing with an open-brace excess of 1, and appending that
many closing braces would parse — but the recovery parser never attempts
the repair (the text already ends at its last closing brace, so the gate
fails) and reports failure. -/
theorem c8_counterexample :
    (jsonParse (stripMarkdown exTruncated)).isNone = true ∧
    openExcessOf (stripMarkdown exTruncated) = 1 ∧
    (jsonParse (stripMarkdown exTruncated ++ ['\x7d'])).isSome = true ∧
    (recoverParse exTruncated).isNone = true := by
  decide

/-- C8 (amended): for raw text failing strict parsing, the parser trims and
cuts to the first open brace; it appends closing braces equal to the
open-brace excess only when the excess is positive and the text does not
already end at its last closing brace; on a further failure it truncates
the (possibly repaired) text at its last closing brace when that brace sits
at a positive index and parses that prefix; only when all of these fail
does the failure propagate. -/
theorem c8_recovery_gated :
    (∀ text, (jsonParse text).isNone = true → repairGate (recoveredStage1 text) = true →
      (jsonParse (recoveredStage1 text
        ++ List.replicate (openExcessOf (recoveredStage1 text)).toNat '\x7d')).isSome = true →
      tryParsePartialJSON text
        = jsonParse (recoveredStage1 text
            ++ List.replicate (openExcessOf (recoveredStage1 text)).toNat '\x7d')) ∧
    (∀ text, (jsonParse text).isNone = true → repairGate (recoveredStage1 text) = false →
      (jsonParse (recoveredStage1 text)).isNone = true →
      0 < lastIdxZ '\x7d' (recoveredStage1 text) →
      tryParsePartialJSON text
        = jsonParse ((recoveredStage1 text).take
            ((lastIdxZ '\x7d' (recoveredStage1 text)).toNat + 1))) ∧
    (∀ text, (jsonParse text).isNone = true →
      (jsonParse (recoveredStage2 (recoveredStage1 text))).isNone = true →
      ¬ 0 < lastIdxZ '\x7d' (recoveredStage2 (recoveredStage1 text)) →
      tryParsePartialJSON text = none) := by
  refine ⟨?_, ?_, ?_⟩
  · intro text hfail hgate hrep
    have h0 : jsonParse text = none := Option.isNone_iff_eq_none.mp hfail
    have hst2 : recoveredStage2 (recoveredStage1 text)
        = recoveredStage1 text
          ++ List.replicate (openExcessOf (recoveredStage1 text)).toNat '\x7d' := by
      unfold recoveredStage2
      rw [if_pos hgate]
    obtain ⟨v, hv⟩ := Option.isSome_iff_exists.mp hrep
    simp only [tryParsePartialJSON, h0, hst2, hv]
  · intro text hfail hgate hagain hpos
    have h0 : jsonParse text = none := Option.isNone_iff_eq_none.mp hfail
    have hst2 : recoveredStage2 (recoveredStage1 text) = recoveredStage1 text := by
      unfold recoveredStage2
      rw [if_neg (by simp [hgate])]
    have h1 : jsonParse (recoveredStage1 text) = none := Option.isNone_iff_eq_none.mp hagain
    simp only [tryParsePartialJSON, h0, hst2, h1]
    rw [if_pos hpos]
  · intro text hfail hagain hneg
    have h0 : jsonParse text = none := Option.isNone_iff_eq_none.mp hfail
    have h1 : jsonParse (recoveredStage2 (recoveredStage1 text)) = none :=
      Option.isNone_iff_eq_none.mp hagain
    simp only [tryParsePartialJSON, h0, h1]
    rw [if_neg hneg]

/-- Witness for C8 (amended) at `\x7b"a":1` (no closing brace at all): the
gate holds and the repaired text is parsed. -/
theorem c8_recovery_gated_witness :
    tryParsePartialJSON exNoTrailing
      = jsonParse (recoveredStage1 exNoTrailing
          ++ List.replicate (openExcessOf (recoveredStage1 exNoTrailing)).toNat '\x7d') :=
  c8_recovery_gated.1 exNoTrailing (by decide) (by decide) (by decide)

/-! ## Retry, cancellation and halting (C3) -/

theorem processTileSuccess_error (H i : ℕ) (st : LoopState) (r : ScanResponse) :
    (processTileSuccess H i st r).error = st.error := by
  simp only [processTileSuccess, foldStatus]
  split
  · rfl
  · split <;> rfl

theorem scanStep_absorb (H : ℕ) (results : ℕ → ScanResponse) (l : List ℕ) (st : LoopState)
    (h : st.error.isSome = true) :
    l.foldl (fun st i => scanStep H st i (results i)) st = st := by
  induction l with
  | nil => rfl
  | cons x xs ih =>
    rw [List.foldl_cons]
    have hstep : scanStep H st x (results x) = st := by
      unfold scanStep
      rw [if_pos h]
    rw [hstep]
    exact ih

theorem scanLoop_error_none (H : ℕ) (results : ℕ → ScanResponse) (l : List ℕ) (st : LoopState)
    (hst : st.error = none) (hl : ∀ i ∈ l, (results i).error = none) :
    (l.foldl (fun st i => scanStep H st i (results i)) st).error = none := by
  induction l generalizing st with
  | nil => exact hst
  | cons x xs ih =>
    rw [List.foldl_cons]
    apply ih
    · have h1 : (results x).error = none := hl x (List.mem_cons_self x xs)
      simp [scanStep, hst, h1, processTileSuccess_error]
    · intro i hi
      exact hl i (List.mem_cons_of_mem x hi)

/-- C3: a non-cancellation failure is retried up to 2 extra attempts
(3 total) with a `retry · 5s` backoff sleep before each retry, after which
the call returns (rather than raises) the degraded result: no findings, a
Caution status, a non-empty error marker; a cancellation — the token
aborted before an attempt, or an abort error during one — propagates
unretried; and the orchestrator, upon a response carrying an error marker,
records the error and stops processing further tiles while keeping the
findings accumulated by the earlier tiles. -/
theorem c3_retry_and_halt :
    (∀ sig env, (∀ k, env.abortedBefore k = false) →
      (∀ k, env.outcome k = AttemptResult.fail) →
      analyzeUIScreen sig env
          = (AnalyzeOutcome.returned (degradedResponse (filterPrevious sig)), [5000, 10000])
        ∧ (degradedResponse (filterPrevious sig)).scans = []
        ∧ (degradedResponse (filterPrevious sig)).viewport_meta.status = DefensiveStatus.Caution
        ∧ (degradedResponse (filterPrevious sig)).error ≠ none) ∧
    (∀ sig env k, k ≤ maxRetries →
      (∀ j, j < k → env.abortedBefore j = false ∧ env.outcome j = AttemptResult.fail) →
      env.abortedBefore k = true →
      analyzeUIScreen sig env
        = (AnalyzeOutcome.cancelled, (List.range k).map (fun j => (j + 1) * 5000))) ∧
    (∀ sig env k, k ≤ maxRetries →
      (∀ j, j < k → env.abortedBefore j = false ∧ env.outcome j = AttemptResult.fail) →
      env.abortedBefore k = false → env.outcome k = AttemptResult.abortErr →
      analyzeUIScreen sig env
        = (AnalyzeOutcome.cancelled, (List.range k).map (fun j => (j + 1) * 5000))) ∧
    (∀ H init results j, j < numTiles H → init.error = none →
      (∀ i, i < j → (results i).error = none) → (results j).error.isSome = true →
      runScanLoop H init results
        = { (List.range j).foldl (fun st i => scanStep H st i (results i)) init
            with error := (results j).error }) := by
  refine ⟨?_, ?_, ?_, ?_⟩
  · intro sig env hab hout
    refine ⟨?_, rfl, rfl, by simp [degradedResponse]⟩
    unfold analyzeUIScreen
    simp [analyzeGo, hab 0, hab 1, hab 2, hout 0, hout 1, hout 2, maxRetries]
  · intro sig env k hk hprev hab
    have hk2 : k ≤ 2 := hk
    interval_cases k
    · unfold analyzeUIScreen
      simp [analyzeGo, hab]
    · have h0 := hprev 0 (by omega)
      unfold analyzeUIScreen
      simp [analyzeGo, h0.1, h0.2, hab, maxRetries, List.range_succ]
    · have h0 := hprev 0 (by omega)
      have h1 := hprev 1 (by omega)
      unfold analyzeUIScreen
      simp [analyzeGo, h0.1, h0.2, h1.1, h1.2, hab, maxRetries, List.range_succ]
  · intro sig env k hk hprev hab habE
    have hk2 : k ≤ 2 := hk
    interval_cases k
    · unfold analyzeUIScreen
      simp [analyzeGo, hab, habE]
    · have h0 := hprev 0 (by omega)
      unfold analyzeUIScreen
      simp [analyzeGo, h0.1, h0.2, hab, habE, maxRetries, List.range_succ]
    · have h0 := hprev 0 (by omega)
      have h1 := hprev 1 (by omega)
      unfold analyzeUIScreen
      simp [analyzeGo, h0.1, h0.2, h1.1, h1.2, hab, habE, maxRetries, List.range_succ]
  · intro H init results j hj hinit hall hsome
    have hn : numTiles H = j + (numTiles H - j) := by omega
    have hm : numTiles H - j = (numTiles H - j - 1) + 1 := by omega
    unfold runScanLoop
    rw [hn, List.range_add, List.foldl_append]
    set A := (List.range j).foldl (fun st i => scanStep H st i (results i)) init with hA
    have hAerr : A.error = none := scanLoop_error_none H results (List.range j) init hinit
      (fun i hi => hall i (List.mem_range.mp hi))
    rw [hm, List.range_succ_eq_map]
    simp only [List.map_cons, List.foldl_cons]
    have hstep : scanStep H A (j + 0) (results (j + 0)) = { A with error := (results j).error } := by
      simp only [Nat.add_zero]
      unfold scanStep
      rw [if_neg (by simp [hAerr]), if_pos hsome]
    rw [hstep]
    exact scanStep_absorb H results _ _ (by simp [hsome])

/-- Witness for C3 at concrete environments: three failing attempts give
the degraded return after sleeps of 5s and 10s; an abort pending before
attempt 1 cancels after the single 5s sleep; an abort error during attempt
0 cancels with no sleep; and a degraded tile 1 halts the two-tile loop
with tile 0's findings kept. -/
theorem c3_retry_and_halt_witness :
    analyzeUIScreen sigEmpty envAllFail
      = (AnalyzeOutcome.returned (degradedResponse (filterPrevious sigEmpty)), [5000, 10000]) ∧
    analyzeUIScreen sigEmpty envAbortAt1 = (AnalyzeOutcome.cancelled, [5000]) ∧
    analyzeUIScreen sigEmpty envAbortErrAt0 = (AnalyzeOutcome.cancelled, []) ∧
    runScanLoop 2922 (initialLoopState sigEmpty) c3Results
      = { (List.range 1).foldl (fun st i => scanStep 2922 st i (c3Results i))
            (initialLoopState sigEmpty)
          with error := (c3Results 1).error } := by
  refine ⟨(c3_retry_and_halt.1 sigEmpty envAllFail (fun k => rfl) (fun k => rfl)).1, ?_, ?_, ?_⟩
  · have h := c3_retry_and_halt.2.1 sigEmpty envAbortAt1 1 (by decide)
      (fun j hj => by interval_cases j; exact ⟨rfl, rfl⟩) (by decide)
    simpa using h
  · have h := c3_retry_and_halt.2.2.1 sigEmpty envAbortErrAt0 0 (by decide)
      (fun j hj => by omega) rfl rfl
    simpa using h
  · exact c3_retry_and_halt.2.2.2 2922 (initialLoopState sigEmpty) c3Results 1 (by decide) rfl
      (fun i hi => by interval_cases i; rfl) rfl

end Optic
